import Mathlib

/-!
Shallow embedding of the streamchat program (src/rust_03/src/main.rs):
Diffie-Hellman key exchange over fixed 64-bit parameters, an LCG-derived
keystream used as an XOR stream cipher, a 4-byte big-endian length-prefixed
frame transport, and the server/client chat session loops.

Machine integers are embedded as Nat with an explicit `% 2 ^ w` wherever the
source wraps or casts (u32 LCG arithmetic, the u128 accumulator of mod_exp,
the `as u32` / `as u64` casts).  Socket input is a byte stream (List Nat of
values below 256), operator input is a list of lines, and each session is
embedded as the list of observable I/O events it performs together with the
way it ends.
-/

/-- Rust constant `P`, the fixed 64-bit DH modulus 0xD87FA3E291B4C7F3. -/
def P : Nat := 0xD87FA3E291B4C7F3

/-- Rust constant `G`, the DH generator. -/
def G : Nat := 2

/-- Rust constant `LCG_A`. -/
def LCG_A : Nat := 1103515245

/-- Rust constant `LCG_C`. -/
def LCG_C : Nat := 12345

/-- Rust struct `LcgKeystream { state: u32 }`; the u32 state is a Nat kept
below 2 ^ 32 by the wrapping arithmetic of `next_byte`. -/
structure LcgKeystream where
  state : Nat
deriving DecidableEq, Repr

/-- Rust `LcgKeystream::new(seed)`: `state = (seed & 0xFFFFFFFF) as u32`;
masking a u64 with 0xFFFFFFFF is reduction mod 2 ^ 32. -/
def LcgKeystream.new (seed : Nat) : LcgKeystream :=
  { state := seed % 2 ^ 32 }

/-- Rust `LcgKeystream::next_byte`:
`state = LCG_A.wrapping_mul(state).wrapping_add(LCG_C)` (each wrap is a
`% 2 ^ 32`), returning `(state >> 24) as u8` together with the updated
generator (the embedding threads the `&mut self` state explicitly). -/
def LcgKeystream.next_byte (ks : LcgKeystream) : Nat × LcgKeystream :=
  let state := (LCG_A * ks.state % 2 ^ 32 + LCG_C) % 2 ^ 32
  (state >>> 24, { state := state })

/-- Rust `LcgKeystream::get_bytes(count)`:
`(0..count).map(|_| self.next_byte()).collect()`, returning the bytes and the
advanced generator. -/
def LcgKeystream.get_bytes (ks : LcgKeystream) (count : Nat) : List Nat × LcgKeystream :=
  match count with
  | 0 => ([], ks)
  | n + 1 =>
    let step := ks.next_byte
    let rest := step.2.get_bytes n
    (step.1 :: rest.1, rest.2)

/-- A generator that has consumed `n` prior byte calls: `next_byte` iterated
`n` times.  This is the call counter the spec names `position`; the source
struct stores no such field, so it is the number of calls made so far. -/
def LcgKeystream.advance (ks : LcgKeystream) : Nat → LcgKeystream
  | 0 => ks
  | n + 1 => (ks.advance n).next_byte.2

/-- Rust `encrypt(plaintext, keystream)`: draw `plaintext.len()` keystream
bytes and XOR them pairwise into the plaintext; returns the ciphertext and
the advanced keystream. -/
def encrypt (plaintext : List Nat) (keystream : LcgKeystream) : List Nat × LcgKeystream :=
  let key := keystream.get_bytes plaintext.length
  (List.zipWith (fun p k => p ^^^ k) plaintext key.1, key.2)

/-- Rust `decrypt(ciphertext, keystream)`: defined as `encrypt`. -/
def decrypt (ciphertext : List Nat) (keystream : LcgKeystream) : List Nat × LcgKeystream :=
  encrypt ciphertext keystream

/-- The `while exp > 0` loop of Rust `mod_exp`.  `fuel` bounds the number of
iterations; the exponent halves every round, so `fuel = exp` always suffices
and the function is extensionally the source loop.  The `% 2 ^ 128` marks
where the u128 multiplications would wrap, and the `% 2 ^ 64` is the
`as u64` cast of the squared base. -/
def mod_exp_go : Nat → Nat → Nat → Nat → Nat → Nat
  | 0, _, result, _, _ => result
  | fuel + 1, exp, result, base, modulus =>
    if exp = 0 then result
    else
      let result' := if exp % 2 = 1 then result * base % 2 ^ 128 % modulus else result
      let base' := base * base % 2 ^ 128 % modulus % 2 ^ 64
      mod_exp_go fuel (exp / 2) result' base' modulus

/-- Rust `mod_exp(base, exp, modulus)`: returns 0 when `modulus == 1`,
otherwise runs square-and-multiply with `base %= modulus` first, a u128
accumulator starting at 1, and a final `as u64` cast of the accumulator. -/
def mod_exp (base exp modulus : Nat) : Nat :=
  if modulus = 1 then 0
  else mod_exp_go exp exp 1 (base % modulus) modulus % 2 ^ 64

/-- Modelled from the spec: the brute-force modular multiplication loop that
section 8 of the design uses as the reference for `mod_exp` — multiply `exp`
copies of `base` together, reducing mod `modulus` after every step. -/
def naive_mod_exp (base exp modulus : Nat) : Nat :=
  match exp with
  | 0 => 1 % modulus
  | e + 1 => naive_mod_exp base e modulus * base % modulus

/-- Rust `generate_keypair`, with the `thread_rng` draw passed in as the
argument: the keypair is the private key and `mod_exp(G, private_key, P)`. -/
def generate_keypair (private_key : Nat) : Nat × Nat :=
  (private_key, mod_exp G private_key P)

/-- Rust `compute_shared_secret(their_public, our_private)`:
`mod_exp(their_public, our_private, P)`. -/
def compute_shared_secret (their_public our_private : Nat) : Nat :=
  mod_exp their_public our_private P

/-- Rust `u32::to_be_bytes` applied to `data.len() as u32`: the four
big-endian base-256 limbs. -/
def u32_to_be_bytes (n : Nat) : List Nat :=
  [n / 2 ^ 24 % 256, n / 2 ^ 16 % 256, n / 2 ^ 8 % 256, n % 256]

/-- Rust `u64::to_be_bytes`: the eight big-endian base-256 limbs. -/
def u64_to_be_bytes (n : Nat) : List Nat :=
  [n / 2 ^ 56 % 256, n / 2 ^ 48 % 256, n / 2 ^ 40 % 256, n / 2 ^ 32 % 256,
   n / 2 ^ 24 % 256, n / 2 ^ 16 % 256, n / 2 ^ 8 % 256, n % 256]

/-- Rust `send_message(stream, data)`: the exact byte sequence written to the
socket — a 4-byte big-endian `data.len() as u32` header (the cast truncates
mod 2 ^ 32) followed by the payload; `flush` adds no bytes. -/
def send_message (data : List Nat) : List Nat :=
  u32_to_be_bytes (data.length % 2 ^ 32) ++ data

/-- Rust `receive_message(stream)`: `read_exact` four header bytes, decode the
big-endian length, then `read_exact` that many payload bytes.  `none` models
the `io::Result` error on a short read or EOF; on success it returns the
payload together with the unread remainder of the stream. -/
def receive_message (stream : List Nat) : Option (List Nat × List Nat) :=
  match stream with
  | a :: b :: c :: d :: rest =>
    let len := a * 2 ^ 24 + b * 2 ^ 16 + c * 2 ^ 8 + d
    if rest.length < len then none
    else some (rest.take len, rest.drop len)
  | _ => none

/-- Rust `u64::from_be_bytes(frame.try_into().unwrap())`: `none` models the
`unwrap` panic when the received frame is not exactly 8 bytes. -/
def u64_from_be_bytes : List Nat → Option Nat
  | [b0, b1, b2, b3, b4, b5, b6, b7] =>
    some (b0 * 2 ^ 56 + b1 * 2 ^ 48 + b2 * 2 ^ 40 + b3 * 2 ^ 32
      + b4 * 2 ^ 24 + b5 * 2 ^ 16 + b6 * 2 ^ 8 + b7)
  | _ => none

/-- Rust `input.trim()`: strip leading and trailing whitespace from the line
(character-list form of the string, so that it evaluates in the kernel). -/
def strTrim (s : String) : String :=
  ⟨((s.data.dropWhile Char.isWhitespace).reverse.dropWhile Char.isWhitespace).reverse⟩

/-- Rust `message.as_bytes()`: the UTF-8 bytes of the string. -/
def strBytes (s : String) : List Nat :=
  (s.data.flatMap String.utf8EncodeChar).map (fun b => b.toNat)

/-- One observable I/O action of a session, tagged by the source call site
that performs it: the handshake public-key frames, the chat-loop frames, and
operator input lines.  Frame events carry the frame payload. -/
inductive Event
  | sendPk (payload : List Nat)
  | recvPk (payload : List Nat)
  | sendMsg (payload : List Nat)
  | recvMsg (payload : List Nat)
  | readLine (line : String)
deriving DecidableEq

/-- How an embedded session run ends: `ok` for the `break` on quit/exit
(`run_*` returns `Ok(())`), `ioError` for a propagated `io::Result` error
(short read or EOF in `receive_message`), `panicked` for the
`try_into().unwrap()` panic on a public-key frame that is not 8 bytes, and
`blockedOnInput` when the finite operator-input script of the model is
exhausted while the program would still be blocking on `read_line`. -/
inductive Outcome
  | ok
  | ioError
  | panicked
  | blockedOnInput
deriving DecidableEq

/-- The chat loop of Rust `run_server`: read a line, trim it; an empty line
is skipped, `quit` or `exit` breaks the loop; otherwise encrypt the trimmed
bytes with the send keystream, send the frame, then block on
`receive_message` and decrypt the received frame with the recv keystream
(failure of that receive propagates as an I/O error). -/
def server_loop : List String → List Nat → LcgKeystream → LcgKeystream → List Event × Outcome
  | [], _, _, _ => ([], Outcome.blockedOnInput)
  | line :: rest, inbound, sks, rks =>
    if strTrim line = "" then
      let next := server_loop rest inbound sks rks
      (Event.readLine line :: next.1, next.2)
    else if strTrim line = "quit" ∨ strTrim line = "exit" then
      ([Event.readLine line], Outcome.ok)
    else
      let cipher := encrypt (strBytes (strTrim line)) sks
      match receive_message inbound with
      | none => ([Event.readLine line, Event.sendMsg cipher.1], Outcome.ioError)
      | some (frame, inbound') =>
        let rks' := (decrypt frame rks).2
        let next := server_loop rest inbound' cipher.2 rks'
        (Event.readLine line :: Event.sendMsg cipher.1 :: Event.recvMsg frame :: next.1,
         next.2)

/-- The chat loop of Rust `run_client`: block on `receive_message`, decrypt
the frame with the recv keystream, then read a line and trim it; an empty
line loops back to the receive, `quit` or `exit` breaks the loop; otherwise
encrypt the trimmed bytes with the send keystream and send the frame. -/
def client_loop : List String → List Nat → LcgKeystream → LcgKeystream → List Event × Outcome
  | lines, inbound, sks, rks =>
    match receive_message inbound with
    | none => ([], Outcome.ioError)
    | some (frame, inbound') =>
      let rks' := (decrypt frame rks).2
      match lines with
      | [] => ([Event.recvMsg frame], Outcome.blockedOnInput)
      | line :: rest =>
        if strTrim line = "" then
          let next := client_loop rest inbound' sks rks'
          (Event.recvMsg frame :: Event.readLine line :: next.1, next.2)
        else if strTrim line = "quit" ∨ strTrim line = "exit" then
          ([Event.recvMsg frame, Event.readLine line], Outcome.ok)
        else
          let cipher := encrypt (strBytes (strTrim line)) sks
          let next := client_loop rest inbound' cipher.2 rks'
          (Event.recvMsg frame :: Event.readLine line :: Event.sendMsg cipher.1 :: next.1,
           next.2)

/-- Rust `run_server` after `accept`: send our public key as an 8-byte
big-endian frame, receive and parse the peer frame (`unwrap` panics unless it
is exactly 8 bytes), derive the shared secret, seed the send and recv
keystreams from it, and run the chat loop.  `our_private` stands for the
random draw inside `generate_keypair`; `inbound` is the byte stream read
from the socket and `lines` the operator input.  The diagnostic printing of
the source (keystream previews recomputed from fresh generators) touches no
session state and emits no I/O events, so it does not appear. -/
def run_server (our_private : Nat) (inbound : List Nat) (lines : List String) :
    List Event × Outcome :=
  let our_public := (generate_keypair our_private).2
  let pk := Event.sendPk (u64_to_be_bytes our_public)
  match receive_message inbound with
  | none => ([pk], Outcome.ioError)
  | some (their_frame, rest) =>
    match u64_from_be_bytes their_frame with
    | none => ([pk, Event.recvPk their_frame], Outcome.panicked)
    | some their_public =>
      let shared_secret := compute_shared_secret their_public our_private
      let next := server_loop lines rest (LcgKeystream.new shared_secret)
        (LcgKeystream.new shared_secret)
      (pk :: Event.recvPk their_frame :: next.1, next.2)

/-- Rust `run_client` after `connect`: receive and parse the peer public-key
frame (`unwrap` panics unless it is exactly 8 bytes — note this happens
before the client sends its own key), send our public key, derive the shared
secret, seed both keystreams, and run the chat loop. -/
def run_client (our_private : Nat) (inbound : List Nat) (lines : List String) :
    List Event × Outcome :=
  let our_public := (generate_keypair our_private).2
  match receive_message inbound with
  | none => ([], Outcome.ioError)
  | some (their_frame, rest) =>
    match u64_from_be_bytes their_frame with
    | none => ([Event.recvPk their_frame], Outcome.panicked)
    | some their_public =>
      let shared_secret := compute_shared_secret their_public our_private
      let next := client_loop lines rest (LcgKeystream.new shared_secret)
        (LcgKeystream.new shared_secret)
      (Event.recvPk their_frame :: Event.sendPk (u64_to_be_bytes our_public) :: next.1,
       next.2)

/-- Rust `main` for a session that ended with the given outcome: `Err(e)`
prints the single line `Error: {e}` to stderr and exits with status 1; a
normal return exits with status 0 and prints nothing.  Modelled from the
spec for the panic case, which is handled by the language runtime outside
this source file: a panic aborts the process with the non-zero status 101
after a panic diagnostic on the error stream.  `none` when the session is
still running (blocked on input), so the process has not terminated. -/
def main_exit : Outcome → Option (Nat × List String)
  | Outcome.ok => some (0, [])
  | Outcome.ioError => some (1, ["Error: <io error>"])
  | Outcome.panicked => some (101, ["panicked at malformed public-key frame"])
  | Outcome.blockedOnInput => none

/-- Whether an event is a handshake (public-key) frame transfer. -/
def Event.isPk : Event → Bool
  | sendPk _ => true
  | recvPk _ => true
  | _ => false

/-- The handshake events of a trace. -/
def pkEvents (trace : List Event) : List Event :=
  trace.filter Event.isPk

/-- The direction of a chat frame event: `true` for an outbound send, `false`
for an inbound receive, nothing for the other events. -/
def Event.chatDir : Event → Option Bool
  | sendMsg _ => some true
  | recvMsg _ => some false
  | _ => none

/-- The directions of the chat frame events of a trace, in order. -/
def chatDirs (trace : List Event) : List Bool :=
  trace.filterMap Event.chatDir

/-- Strict alternation check: the list matches expected, not expected,
expected, ... (a prefix of the infinite alternation is accepted). -/
def altFrom (expected : Bool) : List Bool → Bool
  | [] => true
  | b :: rest => b == expected && altFrom (!expected) rest

/-- Block structure of the client chat directions: a concatenation of
blocks, each one receive optionally followed by one send.  `allowed` records
whether a send may occur now, which is the case exactly right after a
receive; the whole list is checked with `allowed = false`. -/
def clientBlocks (allowed : Bool) : List Bool → Bool
  | [] => true
  | true :: rest => allowed && clientBlocks false rest
  | false :: rest => clientBlocks true rest

/-- Whether the direction list contains two adjacent inbound receives with no
outbound send between them. -/
def twoConsecRecv : List Bool → Bool
  | false :: false :: _ => true
  | _ :: rest => twoConsecRecv rest
  | [] => false

/-- Helper for `recvWaitsForInput`: `seen` records whether a `readLine` has
occurred earlier in the trace. -/
def recvWaitsAux (seen : Bool) : List Event → Bool
  | [] => true
  | Event.readLine _ :: rest => recvWaitsAux true rest
  | Event.recvMsg _ :: rest => seen && recvWaitsAux seen rest
  | _ :: rest => recvWaitsAux seen rest

/-- Every inbound chat frame in the trace is processed only after some
operator input line has been read. -/
def recvWaitsForInput (trace : List Event) : Bool :=
  recvWaitsAux false trace

/-- Helper for `sendWaitsForRecv`: `seen` records whether an inbound chat
frame has occurred earlier in the trace. -/
def sendWaitsAux (seen : Bool) : List Event → Bool
  | [] => true
  | Event.recvMsg _ :: rest => sendWaitsAux true rest
  | Event.sendMsg _ :: rest => seen && sendWaitsAux seen rest
  | _ :: rest => sendWaitsAux seen rest

/-- Every outbound chat frame in the trace is sent only after some inbound
chat frame has been received. -/
def sendWaitsForRecv (trace : List Event) : Bool :=
  sendWaitsAux false trace

theorem get_bytes_fst_length (n : Nat) : ∀ ks : LcgKeystream, ((ks.get_bytes n).1).length = n := by
  induction n with
  | zero => intro ks; rfl
  | succ n ih => intro ks; simp [LcgKeystream.get_bytes, ih]

theorem zipWith_xor_cancel : ∀ (x k : List Nat), x.length ≤ k.length →
    List.zipWith (fun p k => p ^^^ k) (List.zipWith (fun p k => p ^^^ k) x k) k = x := by
  intro x
  induction x with
  | nil => intro k _; simp
  | cons a x ih =>
    intro k hk
    cases k with
    | nil => simp at hk
    | cons b k =>
      simp only [List.zipWith]
      refine List.cons_eq_cons.mpr ⟨Nat.xor_cancel_right b a, ih k ?_⟩
      simpa using hk

theorem transform_involutive (x : List Nat) (ks : LcgKeystream) :
    (decrypt (encrypt x ks).1 ks).1 = x := by
  show (encrypt (encrypt x ks).1 ks).1 = x
  unfold encrypt
  simp only [List.length_zipWith, get_bytes_fst_length, Nat.min_self]
  exact zipWith_xor_cancel x ((ks.get_bytes x.length).1)
    (le_of_eq (get_bytes_fst_length x.length ks).symm)

/-- C1: for every byte sequence `x`, seed `s` and count `n`, decrypting with a
second generator instance created from the same seed and advanced by the same
number of prior byte calls undoes encryption; in particular two fresh
instances from the same seed give `decrypt (encrypt x G1) G2 = x`. -/
theorem cipher_round_trip (x : List Nat) (s n : Nat) :
    (decrypt (encrypt x ((LcgKeystream.new s).advance n)).1
      ((LcgKeystream.new s).advance n)).1 = x
    ∧ (decrypt (encrypt x (LcgKeystream.new s)).1 (LcgKeystream.new s)).1 = x :=
  ⟨transform_involutive x ((LcgKeystream.new s).advance n),
   transform_involutive x (LcgKeystream.new s)⟩

/-- C4: creating a keystream stores `seed mod 2^32`; each `next_byte` call
replaces the state by `(1103515245 * state + 12345) mod 2^32`, returns the
top byte (`state >> 24`, a value below 256) of the new state, and moves the
generator from `n` prior byte calls to `n + 1` (the spec calls this counter
`position`; the source stores no such field, so it is the call count). -/
theorem keystream_step (seed n : Nat) (ks : LcgKeystream) :
    (LcgKeystream.new seed).state = seed % 2 ^ 32
    ∧ ks.next_byte.2.state = (LCG_A * ks.state + LCG_C) % 2 ^ 32
    ∧ ks.next_byte.1 = ks.next_byte.2.state >>> 24
    ∧ ks.next_byte.1 < 256
    ∧ ks.advance (n + 1) = (ks.advance n).next_byte.2 := by
  refine ⟨rfl, Nat.mod_add_mod _ _ _, rfl, ?_, rfl⟩
  show ((LCG_A * ks.state % 2 ^ 32 + LCG_C) % 2 ^ 32) >>> 24 < 256
  rw [Nat.shiftRight_eq_div_pow]
  have h : (LCG_A * ks.state % 2 ^ 32 + LCG_C) % 2 ^ 32 < 2 ^ 32 :=
    Nat.mod_lt _ (by decide)
  omega

theorem square_mul_step (r b m e : Nat) :
    (if e % 2 = 1 then r * b % m else r) * ((b * b % m) ^ (e / 2)) % m
      = r * b ^ e % m := by
  have hbb : (b * b % m) ^ (e / 2) ≡ (b * b) ^ (e / 2) [MOD m] :=
    (Nat.mod_modEq (b * b) m).pow _
  by_cases he : e % 2 = 1
  · rw [if_pos he]
    have h1 : r * b % m * ((b * b % m) ^ (e / 2))
        ≡ r * b * ((b * b) ^ (e / 2)) [MOD m] :=
      (Nat.mod_modEq (r * b) m).mul hbb
    have hb : b ^ e = (b * b) ^ (e / 2) * b := by
      conv_lhs => rw [show e = 2 * (e / 2) + 1 from by omega]
      rw [pow_succ, pow_mul, sq]
    rw [(h1 : _ % m = _ % m), hb]
    ring_nf
  · rw [if_neg he]
    have h1 : r * ((b * b % m) ^ (e / 2)) ≡ r * ((b * b) ^ (e / 2)) [MOD m] :=
      (Nat.ModEq.refl r).mul hbb
    have hb : b ^ e = (b * b) ^ (e / 2) := by
      conv_lhs => rw [show e = 2 * (e / 2) from by omega]
      rw [pow_mul, sq]
    rw [(h1 : _ % m = _ % m), hb]

theorem mod_exp_go_spec : ∀ (fuel exp result base m : Nat), exp ≤ fuel → 2 ≤ m →
    m ≤ 2 ^ 64 → result < m → base < m →
    mod_exp_go fuel exp result base m = result * base ^ exp % m := by
  intro fuel
  induction fuel with
  | zero =>
    intro exp result base m hfe _ _ hr _
    have h0 : exp = 0 := Nat.le_zero.mp hfe
    subst h0
    simp [mod_exp_go, Nat.mod_eq_of_lt hr]
  | succ fuel ih =>
    intro exp result base m hfe hm hm64 hr hb
    by_cases he : exp = 0
    · subst he; simp [mod_exp_go, Nat.mod_eq_of_lt hr]
    · have hm0 : 0 < m := by omega
      have hmul_lt : ∀ u v : Nat, u < m → v < m → u * v < 2 ^ 128 := by
        intro u v hu hv
        calc u * v < m * m := mul_lt_mul'' hu hv (Nat.zero_le u) (Nat.zero_le v)
          _ ≤ 2 ^ 64 * 2 ^ 64 := Nat.mul_le_mul hm64 hm64
          _ = 2 ^ 128 := by norm_num
      have hrb : result * base % 2 ^ 128 = result * base :=
        Nat.mod_eq_of_lt (hmul_lt _ _ hr hb)
      have hbb : base * base % 2 ^ 128 = base * base :=
        Nat.mod_eq_of_lt (hmul_lt _ _ hb hb)
      have hb64 : base * base % 2 ^ 128 % m % 2 ^ 64 = base * base % m := by
        rw [hbb, Nat.mod_eq_of_lt (lt_of_lt_of_le (Nat.mod_lt _ hm0) hm64)]
      have hr2 : (if exp % 2 = 1 then result * base % 2 ^ 128 % m else result) < m := by
        by_cases hp : exp % 2 = 1
        · rw [if_pos hp]; exact Nat.mod_lt _ hm0
        · rw [if_neg hp]; exact hr
      rw [show mod_exp_go (fuel + 1) exp result base m
          = if exp = 0 then result
            else mod_exp_go fuel (exp / 2)
              (if exp % 2 = 1 then result * base % 2 ^ 128 % m else result)
              (base * base % 2 ^ 128 % m % 2 ^ 64) m from rfl]
      rw [if_neg he]
      rw [ih (exp / 2) _ _ m (by omega) hm hm64 hr2
        (by rw [hb64]; exact Nat.mod_lt _ hm0)]
      rw [hb64]
      have hr3 : (if exp % 2 = 1 then result * base % 2 ^ 128 % m else result)
          = (if exp % 2 = 1 then result * base % m else result) := by rw [hrb]
      rw [hr3]
      exact square_mul_step result base m exp

theorem mod_exp_spec (base exp m : Nat) (h1 : 1 ≤ m) (h64 : m ≤ 2 ^ 64) :
    mod_exp base exp m = base ^ exp % m := by
  by_cases hm1 : m = 1
  · subst hm1; simp [mod_exp, Nat.mod_one]
  · have hm2 : 2 ≤ m := by omega
    unfold mod_exp
    rw [if_neg hm1]
    rw [mod_exp_go_spec exp exp 1 (base % m) m le_rfl hm2 h64 (by omega)
      (Nat.mod_lt _ (by omega))]
    rw [one_mul, ← Nat.pow_mod]
    exact Nat.mod_eq_of_lt (lt_of_lt_of_le (Nat.mod_lt _ (by omega)) h64)

theorem naive_mod_exp_spec (base exp m : Nat) :
    naive_mod_exp base exp m = base ^ exp % m := by
  induction exp with
  | zero => simp [naive_mod_exp]
  | succ e ih =>
    show naive_mod_exp base e m * base % m = base ^ (e + 1) % m
    rw [ih, pow_succ]
    exact ((Nat.mod_modEq (base ^ e) m).mul_right base : _ % m = _ % m)

/-- C2: for u64 operands with `modulus >= 1`, `mod_exp` agrees with the brute
force modular multiplication loop; `mod_exp base exp 1 = 0`; and the u128
multiplication step never wraps, even with both factors as large as
`modulus - 1`. -/
theorem mod_exp_correct (base exp modulus : Nat) (h1 : 1 ≤ modulus)
    (h64 : modulus ≤ 2 ^ 64) :
    mod_exp base exp modulus = naive_mod_exp base exp modulus
    ∧ mod_exp base exp 1 = 0
    ∧ (∀ r b, r < modulus → b < modulus → r * b % 2 ^ 128 = r * b) := by
  refine ⟨?_, rfl, ?_⟩
  · rw [mod_exp_spec base exp modulus h1 h64, naive_mod_exp_spec]
  · intro r b hr hb
    refine Nat.mod_eq_of_lt ?_
    calc r * b < modulus * modulus := mul_lt_mul'' hr hb (Nat.zero_le r) (Nat.zero_le b)
      _ ≤ 2 ^ 64 * 2 ^ 64 := Nat.mul_le_mul h64 h64
      _ = 2 ^ 128 := by norm_num

theorem mod_exp_correct_witness :
    ((1:Nat) ≤ 97 ∧ (97:Nat) ≤ 2 ^ 64)
    ∧ (mod_exp 5 13 97 = naive_mod_exp 5 13 97
      ∧ mod_exp 5 13 1 = 0
      ∧ (∀ r b, r < 97 → b < 97 → r * b % 2 ^ 128 = r * b)) :=
  ⟨⟨by decide, by decide⟩, mod_exp_correct 5 13 97 (by decide) (by decide)⟩

/-- C3: for any modulus `p >= 1` (of u64 range), generator and private
exponents, applying `mod_exp` twice in either order yields the same value,
and consequently the two `compute_shared_secret` calls of a session (each on
the peer public key and the own private key, with the fixed modulus `P`)
agree. -/
theorem shared_secret_symm (p g a b : Nat) (h1 : 1 ≤ p) (h64 : p ≤ 2 ^ 64) :
    mod_exp (mod_exp g a p) b p = mod_exp (mod_exp g b p) a p
    ∧ compute_shared_secret (mod_exp G a P) b = compute_shared_secret (mod_exp G b P) a := by
  have key : ∀ (q gg x y : Nat), 1 ≤ q → q ≤ 2 ^ 64 →
      mod_exp (mod_exp gg x q) y q = gg ^ (x * y) % q := by
    intro q gg x y hq hq64
    rw [mod_exp_spec _ _ _ hq hq64, mod_exp_spec _ _ _ hq hq64, ← Nat.pow_mod, ← pow_mul]
  constructor
  · rw [key p g a b h1 h64, key p g b a h1 h64, Nat.mul_comm]
  · show mod_exp (mod_exp G a P) b P = mod_exp (mod_exp G b P) a P
    rw [key P G a b (by decide) (by decide), key P G b a (by decide) (by decide),
      Nat.mul_comm]

theorem shared_secret_symm_witness :
    ((1:Nat) ≤ 97 ∧ (97:Nat) ≤ 2 ^ 64)
    ∧ (mod_exp (mod_exp 5 2 97) 3 97 = mod_exp (mod_exp 5 3 97) 2 97
      ∧ compute_shared_secret (mod_exp G 2 P) 3 = compute_shared_secret (mod_exp G 3 P) 2) :=
  ⟨⟨by decide, by decide⟩, shared_secret_symm 97 5 2 3 (by decide) (by decide)⟩

/-- C5: for any payload shorter than 2^32 bytes, `send_message` writes exactly
the 4-byte big-endian length followed by the payload, and `receive_message`
applied to exactly that byte stream returns the payload unchanged (with
nothing left unread). -/
theorem frame_round_trip (payload : List Nat) (h : payload.length < 2 ^ 32) :
    send_message payload = u32_to_be_bytes payload.length ++ payload
    ∧ receive_message (send_message payload) = some (payload, []) := by
  have hmod : payload.length % 2 ^ 32 = payload.length := Nat.mod_eq_of_lt h
  have hlen : payload.length / 2 ^ 24 % 256 * 2 ^ 24 + payload.length / 2 ^ 16 % 256 * 2 ^ 16
      + payload.length / 2 ^ 8 % 256 * 2 ^ 8 + payload.length % 256 = payload.length := by
    omega
  constructor
  · unfold send_message
    rw [hmod]
  · simp only [send_message, hmod, u32_to_be_bytes, List.cons_append, List.nil_append,
      receive_message]
    rw [hlen]
    simp

theorem frame_round_trip_witness :
    ([7, 42] : List Nat).length < 2 ^ 32
    ∧ (send_message [7, 42] = u32_to_be_bytes ([7, 42] : List Nat).length ++ [7, 42]
      ∧ receive_message (send_message [7, 42]) = some ([7, 42], [])) :=
  ⟨by decide, frame_round_trip [7, 42] (by decide)⟩

theorem server_loop_nil (inbound : List Nat) (sks rks : LcgKeystream) :
    server_loop [] inbound sks rks = ([], Outcome.blockedOnInput) := rfl

theorem server_loop_empty_line (line : String) (rest : List String) (inbound : List Nat)
    (sks rks : LcgKeystream) (h1 : strTrim line = "") :
    server_loop (line :: rest) inbound sks rks
      = (Event.readLine line :: (server_loop rest inbound sks rks).1,
         (server_loop rest inbound sks rks).2) := by
  conv_lhs => rw [server_loop]
  rw [if_pos h1]

theorem server_loop_quit (line : String) (rest : List String) (inbound : List Nat)
    (sks rks : LcgKeystream) (h1 : ¬ strTrim line = "")
    (h2 : strTrim line = "quit" ∨ strTrim line = "exit") :
    server_loop (line :: rest) inbound sks rks = ([Event.readLine line], Outcome.ok) := by
  conv_lhs => rw [server_loop]
  rw [if_neg h1, if_pos h2]

theorem server_loop_send_err (line : String) (rest : List String) (inbound : List Nat)
    (sks rks : LcgKeystream) (h1 : ¬ strTrim line = "")
    (h2 : ¬ (strTrim line = "quit" ∨ strTrim line = "exit"))
    (hrecv : receive_message inbound = none) :
    server_loop (line :: rest) inbound sks rks
      = ([Event.readLine line, Event.sendMsg (encrypt (strBytes (strTrim line)) sks).1],
         Outcome.ioError) := by
  conv_lhs => rw [server_loop]
  rw [if_neg h1, if_neg h2, hrecv]

theorem server_loop_send (line : String) (rest : List String) (inbound : List Nat)
    (sks rks : LcgKeystream) (frame inbound' : List Nat) (h1 : ¬ strTrim line = "")
    (h2 : ¬ (strTrim line = "quit" ∨ strTrim line = "exit"))
    (hrecv : receive_message inbound = some (frame, inbound')) :
    server_loop (line :: rest) inbound sks rks
      = (Event.readLine line
          :: Event.sendMsg (encrypt (strBytes (strTrim line)) sks).1
          :: Event.recvMsg frame
          :: (server_loop rest inbound'
                (encrypt (strBytes (strTrim line)) sks).2 (decrypt frame rks).2).1,
         (server_loop rest inbound'
            (encrypt (strBytes (strTrim line)) sks).2 (decrypt frame rks).2).2) := by
  conv_lhs => rw [server_loop]
  rw [if_neg h1, if_neg h2, hrecv]

theorem client_loop_err (lines : List String) (inbound : List Nat)
    (sks rks : LcgKeystream) (hrecv : receive_message inbound = none) :
    client_loop lines inbound sks rks = ([], Outcome.ioError) := by
  conv_lhs => rw [client_loop]
  rw [hrecv]

theorem client_loop_nil (inbound : List Nat) (sks rks : LcgKeystream)
    (frame inbound' : List Nat) (hrecv : receive_message inbound = some (frame, inbound')) :
    client_loop [] inbound sks rks = ([Event.recvMsg frame], Outcome.blockedOnInput) := by
  conv_lhs => rw [client_loop]
  rw [hrecv]

theorem client_loop_cons_eq (line : String) (rest : List String) (inbound : List Nat)
    (sks rks : LcgKeystream) (frame inbound' : List Nat)
    (hrecv : receive_message inbound = some (frame, inbound')) :
    client_loop (line :: rest) inbound sks rks
      = if strTrim line = "" then
          (Event.recvMsg frame :: Event.readLine line
            :: (client_loop rest inbound' sks (decrypt frame rks).2).1,
           (client_loop rest inbound' sks (decrypt frame rks).2).2)
        else if strTrim line = "quit" ∨ strTrim line = "exit" then
          ([Event.recvMsg frame, Event.readLine line], Outcome.ok)
        else
          (Event.recvMsg frame :: Event.readLine line
            :: Event.sendMsg (encrypt (strBytes (strTrim line)) sks).1
            :: (client_loop rest inbound'
                  (encrypt (strBytes (strTrim line)) sks).2 (decrypt frame rks).2).1,
           (client_loop rest inbound'
              (encrypt (strBytes (strTrim line)) sks).2 (decrypt frame rks).2).2) := by
  conv_lhs => rw [client_loop]
  rw [hrecv]

theorem client_loop_empty_line (line : String) (rest : List String) (inbound : List Nat)
    (sks rks : LcgKeystream) (frame inbound' : List Nat)
    (hrecv : receive_message inbound = some (frame, inbound'))
    (h1 : strTrim line = "") :
    client_loop (line :: rest) inbound sks rks
      = (Event.recvMsg frame :: Event.readLine line
          :: (client_loop rest inbound' sks (decrypt frame rks).2).1,
         (client_loop rest inbound' sks (decrypt frame rks).2).2) := by
  rw [client_loop_cons_eq line rest inbound sks rks frame inbound' hrecv, if_pos h1]

theorem client_loop_quit (line : String) (rest : List String) (inbound : List Nat)
    (sks rks : LcgKeystream) (frame inbound' : List Nat)
    (hrecv : receive_message inbound = some (frame, inbound'))
    (h1 : ¬ strTrim line = "") (h2 : strTrim line = "quit" ∨ strTrim line = "exit") :
    client_loop (line :: rest) inbound sks rks
      = ([Event.recvMsg frame, Event.readLine line], Outcome.ok) := by
  rw [client_loop_cons_eq line rest inbound sks rks frame inbound' hrecv, if_neg h1,
    if_pos h2]

theorem client_loop_send (line : String) (rest : List String) (inbound : List Nat)
    (sks rks : LcgKeystream) (frame inbound' : List Nat)
    (hrecv : receive_message inbound = some (frame, inbound'))
    (h1 : ¬ strTrim line = "") (h2 : ¬ (strTrim line = "quit" ∨ strTrim line = "exit")) :
    client_loop (line :: rest) inbound sks rks
      = (Event.recvMsg frame :: Event.readLine line
          :: Event.sendMsg (encrypt (strBytes (strTrim line)) sks).1
          :: (client_loop rest inbound'
                (encrypt (strBytes (strTrim line)) sks).2 (decrypt frame rks).2).1,
         (client_loop rest inbound'
            (encrypt (strBytes (strTrim line)) sks).2 (decrypt frame rks).2).2) := by
  rw [client_loop_cons_eq line rest inbound sks rks frame inbound' hrecv, if_neg h1,
    if_neg h2]

theorem u64_from_be_bytes_isSome_iff (l : List Nat) :
    (u64_from_be_bytes l).isSome = true ↔ l.length = 8 := by
  rcases l with _ | ⟨b0, _ | ⟨b1, _ | ⟨b2, _ | ⟨b3, _ | ⟨b4, _ | ⟨b5, _ | ⟨b6, _ |
    ⟨b7, _ | ⟨b8, t⟩⟩⟩⟩⟩⟩⟩⟩⟩ <;> simp [u64_from_be_bytes]

theorem pkEvents_server_loop : ∀ (lines : List String) (inbound : List Nat)
    (sks rks : LcgKeystream), pkEvents (server_loop lines inbound sks rks).1 = [] := by
  intro lines
  induction lines with
  | nil => intro inbound sks rks; rfl
  | cons line rest ih =>
    intro inbound sks rks
    by_cases h1 : strTrim line = ""
    · rw [server_loop_empty_line line rest inbound sks rks h1]
      exact ih inbound sks rks
    · by_cases h2 : strTrim line = "quit" ∨ strTrim line = "exit"
      · rw [server_loop_quit line rest inbound sks rks h1 h2]; rfl
      · cases hrecv : receive_message inbound with
        | none => rw [server_loop_send_err line rest inbound sks rks h1 h2 hrecv]; rfl
        | some fr =>
          obtain ⟨frame, inbound'⟩ := fr
          rw [server_loop_send line rest inbound sks rks frame inbound' h1 h2 hrecv]
          exact ih inbound' _ _

theorem pkEvents_client_loop : ∀ (lines : List String) (inbound : List Nat)
    (sks rks : LcgKeystream), pkEvents (client_loop lines inbound sks rks).1 = [] := by
  intro lines
  induction lines with
  | nil =>
    intro inbound sks rks
    cases hrecv : receive_message inbound with
    | none => rw [client_loop_err [] inbound sks rks hrecv]; rfl
    | some fr =>
      obtain ⟨frame, inbound'⟩ := fr
      rw [client_loop_nil inbound sks rks frame inbound' hrecv]; rfl
  | cons line rest ih =>
    intro inbound sks rks
    cases hrecv : receive_message inbound with
    | none => rw [client_loop_err (line :: rest) inbound sks rks hrecv]; rfl
    | some fr =>
      obtain ⟨frame, inbound'⟩ := fr
      by_cases h1 : strTrim line = ""
      · rw [client_loop_empty_line line rest inbound sks rks frame inbound' hrecv h1]
        exact ih inbound' _ _
      · by_cases h2 : strTrim line = "quit" ∨ strTrim line = "exit"
        · rw [client_loop_quit line rest inbound sks rks frame inbound' hrecv h1 h2]; rfl
        · rw [client_loop_send line rest inbound sks rks frame inbound' hrecv h1 h2]
          exact ih inbound' _ _

theorem run_server_recv_eq (our_private : Nat) (inbound : List Nat) (lines : List String)
    (frame rest : List Nat) (hrecv : receive_message inbound = some (frame, rest)) :
    run_server our_private inbound lines
      = match u64_from_be_bytes frame with
        | none => ([Event.sendPk (u64_to_be_bytes (generate_keypair our_private).2),
                    Event.recvPk frame], Outcome.panicked)
        | some their_public =>
          (Event.sendPk (u64_to_be_bytes (generate_keypair our_private).2)
            :: Event.recvPk frame
            :: (server_loop lines rest
                  (LcgKeystream.new (compute_shared_secret their_public our_private))
                  (LcgKeystream.new (compute_shared_secret their_public our_private))).1,
           (server_loop lines rest
              (LcgKeystream.new (compute_shared_secret their_public our_private))
              (LcgKeystream.new (compute_shared_secret their_public our_private))).2) := by
  conv_lhs => rw [run_server]
  rw [hrecv]

theorem run_client_recv_eq (our_private : Nat) (inbound : List Nat) (lines : List String)
    (frame rest : List Nat) (hrecv : receive_message inbound = some (frame, rest)) :
    run_client our_private inbound lines
      = match u64_from_be_bytes frame with
        | none => ([Event.recvPk frame], Outcome.panicked)
        | some their_public =>
          (Event.recvPk frame
            :: Event.sendPk (u64_to_be_bytes (generate_keypair our_private).2)
            :: (client_loop lines rest
                  (LcgKeystream.new (compute_shared_secret their_public our_private))
                  (LcgKeystream.new (compute_shared_secret their_public our_private))).1,
           (client_loop lines rest
              (LcgKeystream.new (compute_shared_secret their_public our_private))
              (LcgKeystream.new (compute_shared_secret their_public our_private))).2) := by
  conv_lhs => rw [run_client]
  rw [hrecv]

/-- C6: in a session whose handshake completes (the peer frame arrives and
parses, which happens exactly when it is 8 bytes long), the server trace
begins with the send of its own 8-byte big-endian public-key frame followed
by the receive of the peer frame, the client trace begins with the receive
followed by its own send, and the remainder of either trace contains no
public-key event at all — each role performs exactly one public-key send and
one public-key receive, in a fixed order. -/
theorem handshake_ordering (our_private : Nat) (inbound : List Nat) (lines : List String)
    (frame rest : List Nat) (their_public : Nat)
    (hrecv : receive_message inbound = some (frame, rest))
    (hparse : u64_from_be_bytes frame = some their_public) :
    frame.length = 8
    ∧ (u64_to_be_bytes (generate_keypair our_private).2).length = 8
    ∧ (∃ tail outcome, run_server our_private inbound lines
        = (Event.sendPk (u64_to_be_bytes (generate_keypair our_private).2)
            :: Event.recvPk frame :: tail, outcome)
        ∧ pkEvents tail = [])
    ∧ (∃ tail outcome, run_client our_private inbound lines
        = (Event.recvPk frame
            :: Event.sendPk (u64_to_be_bytes (generate_keypair our_private).2) :: tail, outcome)
        ∧ pkEvents tail = []) := by
  refine ⟨(u64_from_be_bytes_isSome_iff frame).mp (by rw [hparse]; rfl), rfl, ?_, ?_⟩
  · refine ⟨(server_loop lines rest
        (LcgKeystream.new (compute_shared_secret their_public our_private))
        (LcgKeystream.new (compute_shared_secret their_public our_private))).1,
      (server_loop lines rest
        (LcgKeystream.new (compute_shared_secret their_public our_private))
        (LcgKeystream.new (compute_shared_secret their_public our_private))).2, ?_,
      pkEvents_server_loop lines rest _ _⟩
    rw [run_server_recv_eq our_private inbound lines frame rest hrecv, hparse]
  · refine ⟨(client_loop lines rest
        (LcgKeystream.new (compute_shared_secret their_public our_private))
        (LcgKeystream.new (compute_shared_secret their_public our_private))).1,
      (client_loop lines rest
        (LcgKeystream.new (compute_shared_secret their_public our_private))
        (LcgKeystream.new (compute_shared_secret their_public our_private))).2, ?_,
      pkEvents_client_loop lines rest _ _⟩
    rw [run_client_recv_eq our_private inbound lines frame rest hrecv, hparse]

theorem handshake_ordering_witness :
    receive_message [0, 0, 0, 8, 0, 0, 0, 0, 0, 0, 0, 7]
        = some ([0, 0, 0, 0, 0, 0, 0, 7], [])
    ∧ u64_from_be_bytes [0, 0, 0, 0, 0, 0, 0, 7] = some 7
    ∧ (([0, 0, 0, 0, 0, 0, 0, 7] : List Nat).length = 8
      ∧ (u64_to_be_bytes (generate_keypair 0).2).length = 8
      ∧ (∃ tail outcome, run_server 0 [0, 0, 0, 8, 0, 0, 0, 0, 0, 0, 0, 7] []
          = (Event.sendPk (u64_to_be_bytes (generate_keypair 0).2)
              :: Event.recvPk [0, 0, 0, 0, 0, 0, 0, 7] :: tail, outcome)
          ∧ pkEvents tail = [])
      ∧ (∃ tail outcome, run_client 0 [0, 0, 0, 8, 0, 0, 0, 0, 0, 0, 0, 7] []
          = (Event.recvPk [0, 0, 0, 0, 0, 0, 0, 7]
              :: Event.sendPk (u64_to_be_bytes (generate_keypair 0).2) :: tail, outcome)
          ∧ pkEvents tail = [])) :=
  ⟨by decide, by decide,
   handshake_ordering 0 [0, 0, 0, 8, 0, 0, 0, 0, 0, 0, 0, 7] []
     [0, 0, 0, 0, 0, 0, 0, 7] [] 7 (by decide) (by decide)⟩

/-- C7: one iteration of the duplex loop of either role, given that a frame
is available on the socket: a line trimming to the empty string produces no
frame, leaves the outbound keystream untouched and continues the session; a
line trimming to `quit` or `exit` ends the loop normally with no final frame
and no outbound keystream advance; any other line makes the role encrypt the
trimmed bytes with the outbound keystream, send them as one frame, and
continue the loop with the advanced keystream. -/
theorem send_path_semantics (line : String) (rest : List String) (inbound : List Nat)
    (sks rks : LcgKeystream) (frame inbound' : List Nat)
    (hrecv : receive_message inbound = some (frame, inbound')) :
    (strTrim line = "" →
      server_loop (line :: rest) inbound sks rks
        = (Event.readLine line :: (server_loop rest inbound sks rks).1,
           (server_loop rest inbound sks rks).2)
      ∧ client_loop (line :: rest) inbound sks rks
        = (Event.recvMsg frame :: Event.readLine line
            :: (client_loop rest inbound' sks (decrypt frame rks).2).1,
           (client_loop rest inbound' sks (decrypt frame rks).2).2))
    ∧ ((strTrim line = "quit" ∨ strTrim line = "exit") →
      server_loop (line :: rest) inbound sks rks = ([Event.readLine line], Outcome.ok)
      ∧ client_loop (line :: rest) inbound sks rks
        = ([Event.recvMsg frame, Event.readLine line], Outcome.ok))
    ∧ (¬ strTrim line = "" → ¬ (strTrim line = "quit" ∨ strTrim line = "exit") →
      server_loop (line :: rest) inbound sks rks
        = (Event.readLine line
            :: Event.sendMsg (encrypt (strBytes (strTrim line)) sks).1
            :: Event.recvMsg frame
            :: (server_loop rest inbound'
                  (encrypt (strBytes (strTrim line)) sks).2 (decrypt frame rks).2).1,
           (server_loop rest inbound'
              (encrypt (strBytes (strTrim line)) sks).2 (decrypt frame rks).2).2)
      ∧ client_loop (line :: rest) inbound sks rks
        = (Event.recvMsg frame :: Event.readLine line
            :: Event.sendMsg (encrypt (strBytes (strTrim line)) sks).1
            :: (client_loop rest inbound'
                  (encrypt (strBytes (strTrim line)) sks).2 (decrypt frame rks).2).1,
           (client_loop rest inbound'
              (encrypt (strBytes (strTrim line)) sks).2 (decrypt frame rks).2).2)) := by
  refine ⟨fun h1 => ⟨server_loop_empty_line line rest inbound sks rks h1,
      client_loop_empty_line line rest inbound sks rks frame inbound' hrecv h1⟩,
    fun h2 => ?_,
    fun h1 h2 => ⟨server_loop_send line rest inbound sks rks frame inbound' h1 h2 hrecv,
      client_loop_send line rest inbound sks rks frame inbound' hrecv h1 h2⟩⟩
  have h1 : ¬ strTrim line = "" := by
    rcases h2 with h | h <;> rw [h] <;> decide
  exact ⟨server_loop_quit line rest inbound sks rks h1 h2,
    client_loop_quit line rest inbound sks rks frame inbound' hrecv h1 h2⟩

theorem send_path_semantics_witness :
    receive_message [0, 0, 0, 1, 9] = some ([9], [])
    ∧ ¬ strTrim "hello" = ""
    ∧ ¬ (strTrim "hello" = "quit" ∨ strTrim "hello" = "exit")
    ∧ server_loop ["hello"] [0, 0, 0, 1, 9] (LcgKeystream.new 1) (LcgKeystream.new 1)
        = (Event.readLine "hello"
            :: Event.sendMsg (encrypt (strBytes (strTrim "hello")) (LcgKeystream.new 1)).1
            :: Event.recvMsg [9]
            :: (server_loop [] []
                  (encrypt (strBytes (strTrim "hello")) (LcgKeystream.new 1)).2
                  (decrypt [9] (LcgKeystream.new 1)).2).1,
           (server_loop [] []
              (encrypt (strBytes (strTrim "hello")) (LcgKeystream.new 1)).2
              (decrypt [9] (LcgKeystream.new 1)).2).2)
    ∧ client_loop ["hello"] [0, 0, 0, 1, 9] (LcgKeystream.new 1) (LcgKeystream.new 1)
        = (Event.recvMsg [9] :: Event.readLine "hello"
            :: Event.sendMsg (encrypt (strBytes (strTrim "hello")) (LcgKeystream.new 1)).1
            :: (client_loop [] []
                  (encrypt (strBytes (strTrim "hello")) (LcgKeystream.new 1)).2
                  (decrypt [9] (LcgKeystream.new 1)).2).1,
           (client_loop [] []
              (encrypt (strBytes (strTrim "hello")) (LcgKeystream.new 1)).2
              (decrypt [9] (LcgKeystream.new 1)).2).2) :=
  ⟨by decide, by decide, by decide,
   ((send_path_semantics "hello" [] [0, 0, 0, 1, 9] (LcgKeystream.new 1)
      (LcgKeystream.new 1) [9] [] (by decide)).2.2 (by decide) (by decide)).1,
   ((send_path_semantics "hello" [] [0, 0, 0, 1, 9] (LcgKeystream.new 1)
      (LcgKeystream.new 1) [9] [] (by decide)).2.2 (by decide) (by decide)).2⟩

/-- C8: every I/O or handshake failure of the model is fatal and never
retried: a stream shorter than the 4-byte header or shorter than the
announced payload makes `receive_message` fail; a failed receive during the
handshake ends the session at once with an I/O error outcome; a public-key
frame that is not exactly 8 bytes makes either role end with the `unwrap`
panic outcome; a failed receive inside the chat loop ends the loop at once
with no further events; and a session that ended with an I/O error or panic
outcome terminates the process with a non-zero status after a single
diagnostic line on the error stream. -/
theorem fatal_error_policy (s : List Nat) (a b c d : Nat) (hdr_rest : List Nat)
    (our_private : Nat) (inbound inbound2 : List Nat) (lines : List String)
    (frame rest2 : List Nat) (line : String) (more : List String)
    (sks rks : LcgKeystream) :
    (s.length < 4 → receive_message s = none)
    ∧ (hdr_rest.length < a * 2 ^ 24 + b * 2 ^ 16 + c * 2 ^ 8 + d →
        receive_message (a :: b :: c :: d :: hdr_rest) = none)
    ∧ (receive_message inbound = none →
        run_server our_private inbound lines
          = ([Event.sendPk (u64_to_be_bytes (generate_keypair our_private).2)],
             Outcome.ioError)
        ∧ run_client our_private inbound lines = ([], Outcome.ioError))
    ∧ (receive_message inbound2 = some (frame, rest2) → frame.length ≠ 8 →
        (run_server our_private inbound2 lines).2 = Outcome.panicked
        ∧ (run_client our_private inbound2 lines).2 = Outcome.panicked)
    ∧ (receive_message inbound = none → ¬ strTrim line = "" →
        ¬ (strTrim line = "quit" ∨ strTrim line = "exit") →
        server_loop (line :: more) inbound sks rks
          = ([Event.readLine line,
              Event.sendMsg (encrypt (strBytes (strTrim line)) sks).1], Outcome.ioError)
        ∧ client_loop (line :: more) inbound sks rks = ([], Outcome.ioError))
    ∧ (∀ o : Outcome, o = Outcome.ioError ∨ o = Outcome.panicked →
        ∃ code diag, main_exit o = some (code, [diag]) ∧ code ≠ 0) := by
  refine ⟨?_, ?_, ?_, ?_, ?_, ?_⟩
  · intro hs
    rcases s with _ | ⟨x1, _ | ⟨x2, _ | ⟨x3, _ | ⟨x4, t⟩⟩⟩⟩
    · rfl
    · rfl
    · rfl
    · rfl
    · exfalso; simp at hs; omega
  · intro h
    simp only [receive_message]
    rw [if_pos h]
  · intro h
    constructor
    · conv_lhs => rw [run_server]
      rw [h]
    · conv_lhs => rw [run_client]
      rw [h]
  · intro hr hlen
    have hparse : u64_from_be_bytes frame = none := by
      rcases hp : u64_from_be_bytes frame with _ | v
      · rfl
      · exact absurd ((u64_from_be_bytes_isSome_iff frame).mp (by rw [hp]; rfl)) hlen
    constructor
    · rw [run_server_recv_eq our_private inbound2 lines frame rest2 hr, hparse]
    · rw [run_client_recv_eq our_private inbound2 lines frame rest2 hr, hparse]
  · intro h h1 h2
    exact ⟨server_loop_send_err line more inbound sks rks h1 h2 h,
      client_loop_err (line :: more) inbound sks rks h⟩
  · intro o ho
    rcases ho with h | h <;> subst h
    · exact ⟨1, "Error: <io error>", rfl, by decide⟩
    · exact ⟨101, "panicked at malformed public-key frame", rfl, by decide⟩

theorem fatal_error_policy_witness :
    receive_message [1, 2] = none
    ∧ receive_message [0, 0, 0, 5, 1, 2] = none
    ∧ (run_server 0 [] []
        = ([Event.sendPk (u64_to_be_bytes (generate_keypair 0).2)], Outcome.ioError)
      ∧ run_client 0 [] [] = ([], Outcome.ioError))
    ∧ ((run_server 0 [0, 0, 0, 3, 1, 2, 3] []).2 = Outcome.panicked
      ∧ (run_client 0 [0, 0, 0, 3, 1, 2, 3] []).2 = Outcome.panicked)
    ∧ (server_loop ["hi"] [] (LcgKeystream.new 1) (LcgKeystream.new 1)
        = ([Event.readLine "hi",
            Event.sendMsg (encrypt (strBytes (strTrim "hi")) (LcgKeystream.new 1)).1],
           Outcome.ioError)
      ∧ client_loop ["hi"] [] (LcgKeystream.new 1) (LcgKeystream.new 1)
          = ([], Outcome.ioError))
    ∧ (∃ code diag, main_exit Outcome.panicked = some (code, [diag]) ∧ code ≠ 0) := by
  have T := fatal_error_policy [1, 2] 0 0 0 5 [1, 2] 0 [] [0, 0, 0, 3, 1, 2, 3] []
    [1, 2, 3] [] "hi" [] (LcgKeystream.new 1) (LcgKeystream.new 1)
  exact ⟨T.1 (by decide), T.2.1 (by decide), T.2.2.1 (by decide),
    T.2.2.2.1 (by decide) (by decide),
    T.2.2.2.2.1 (by decide) (by decide) (by decide),
    T.2.2.2.2.2 Outcome.panicked (Or.inr rfl)⟩

theorem run_server_err_eq (our_private : Nat) (inbound : List Nat) (lines : List String)
    (hrecv : receive_message inbound = none) :
    run_server our_private inbound lines
      = ([Event.sendPk (u64_to_be_bytes (generate_keypair our_private).2)],
         Outcome.ioError) := by
  conv_lhs => rw [run_server]
  rw [hrecv]

theorem run_client_err_eq (our_private : Nat) (inbound : List Nat) (lines : List String)
    (hrecv : receive_message inbound = none) :
    run_client our_private inbound lines = ([], Outcome.ioError) := by
  conv_lhs => rw [run_client]
  rw [hrecv]

theorem recvWaitsAux_server_loop : ∀ (lines : List String) (inbound : List Nat)
    (sks rks : LcgKeystream) (seen : Bool),
    recvWaitsAux seen (server_loop lines inbound sks rks).1 = true := by
  intro lines
  induction lines with
  | nil => intro inbound sks rks seen; rfl
  | cons line rest ih =>
    intro inbound sks rks seen
    by_cases h1 : strTrim line = ""
    · rw [server_loop_empty_line line rest inbound sks rks h1]
      exact ih inbound sks rks true
    · by_cases h2 : strTrim line = "quit" ∨ strTrim line = "exit"
      · rw [server_loop_quit line rest inbound sks rks h1 h2]; rfl
      · cases hrecv : receive_message inbound with
        | none => rw [server_loop_send_err line rest inbound sks rks h1 h2 hrecv]; rfl
        | some fr =>
          obtain ⟨frame, inbound'⟩ := fr
          rw [server_loop_send line rest inbound sks rks frame inbound' h1 h2 hrecv]
          exact ih inbound' _ _ true

theorem sendWaitsAux_client_loop : ∀ (lines : List String) (inbound : List Nat)
    (sks rks : LcgKeystream) (seen : Bool),
    sendWaitsAux seen (client_loop lines inbound sks rks).1 = true := by
  intro lines
  induction lines with
  | nil =>
    intro inbound sks rks seen
    cases hrecv : receive_message inbound with
    | none => rw [client_loop_err [] inbound sks rks hrecv]; rfl
    | some fr =>
      obtain ⟨frame, inbound'⟩ := fr
      rw [client_loop_nil inbound sks rks frame inbound' hrecv]; rfl
  | cons line rest ih =>
    intro inbound sks rks seen
    cases hrecv : receive_message inbound with
    | none => rw [client_loop_err (line :: rest) inbound sks rks hrecv]; rfl
    | some fr =>
      obtain ⟨frame, inbound'⟩ := fr
      by_cases h1 : strTrim line = ""
      · rw [client_loop_empty_line line rest inbound sks rks frame inbound' hrecv h1]
        exact ih inbound' _ _ true
      · by_cases h2 : strTrim line = "quit" ∨ strTrim line = "exit"
        · rw [client_loop_quit line rest inbound sks rks frame inbound' hrecv h1 h2]; rfl
        · rw [client_loop_send line rest inbound sks rks frame inbound' hrecv h1 h2]
          exact ih inbound' _ _ true

theorem altFrom_server_loop : ∀ (lines : List String) (inbound : List Nat)
    (sks rks : LcgKeystream),
    altFrom true (chatDirs (server_loop lines inbound sks rks).1) = true := by
  intro lines
  induction lines with
  | nil => intro inbound sks rks; rfl
  | cons line rest ih =>
    intro inbound sks rks
    by_cases h1 : strTrim line = ""
    · rw [server_loop_empty_line line rest inbound sks rks h1]
      exact ih inbound sks rks
    · by_cases h2 : strTrim line = "quit" ∨ strTrim line = "exit"
      · rw [server_loop_quit line rest inbound sks rks h1 h2]; rfl
      · cases hrecv : receive_message inbound with
        | none => rw [server_loop_send_err line rest inbound sks rks h1 h2 hrecv]; rfl
        | some fr =>
          obtain ⟨frame, inbound'⟩ := fr
          rw [server_loop_send line rest inbound sks rks frame inbound' h1 h2 hrecv]
          exact ih inbound' _ _

theorem clientBlocks_client_loop : ∀ (lines : List String) (inbound : List Nat)
    (sks rks : LcgKeystream) (allowed : Bool),
    clientBlocks allowed (chatDirs (client_loop lines inbound sks rks).1) = true := by
  intro lines
  induction lines with
  | nil =>
    intro inbound sks rks allowed
    cases hrecv : receive_message inbound with
    | none => rw [client_loop_err [] inbound sks rks hrecv]; rfl
    | some fr =>
      obtain ⟨frame, inbound'⟩ := fr
      rw [client_loop_nil inbound sks rks frame inbound' hrecv]; rfl
  | cons line rest ih =>
    intro inbound sks rks allowed
    cases hrecv : receive_message inbound with
    | none => rw [client_loop_err (line :: rest) inbound sks rks hrecv]; rfl
    | some fr =>
      obtain ⟨frame, inbound'⟩ := fr
      by_cases h1 : strTrim line = ""
      · rw [client_loop_empty_line line rest inbound sks rks frame inbound' hrecv h1]
        exact ih inbound' _ _ true
      · by_cases h2 : strTrim line = "quit" ∨ strTrim line = "exit"
        · rw [client_loop_quit line rest inbound sks rks frame inbound' hrecv h1 h2]; rfl
        · rw [client_loop_send line rest inbound sks rks frame inbound' hrecv h1 h2]
          exact ih inbound' _ _ false

theorem altFrom_run_server (our_private : Nat) (inbound : List Nat) (lines : List String) :
    altFrom true (chatDirs (run_server our_private inbound lines).1) = true := by
  rcases hrecv : receive_message inbound with _ | ⟨frame, rest⟩
  · rw [run_server_err_eq our_private inbound lines hrecv]; rfl
  · rw [run_server_recv_eq our_private inbound lines frame rest hrecv]
    rcases hparse : u64_from_be_bytes frame with _ | tp
    · rfl
    · exact altFrom_server_loop lines rest _ _

theorem clientBlocks_run_client (our_private : Nat) (inbound : List Nat)
    (lines : List String) :
    clientBlocks false (chatDirs (run_client our_private inbound lines).1) = true := by
  rcases hrecv : receive_message inbound with _ | ⟨frame, rest⟩
  · rw [run_client_err_eq our_private inbound lines hrecv]; rfl
  · rw [run_client_recv_eq our_private inbound lines frame rest hrecv]
    rcases hparse : u64_from_be_bytes frame with _ | tp
    · rfl
    · exact clientBlocks_client_loop lines rest _ _ false

/-- C9 as stated is false of the code: the session is a single sequential
loop, not two concurrently-executing activities.  With a full frame waiting
on the socket but no operator input, the server processes nothing at all (it
is blocked on `read_line`), and with operator input available but no inbound
frame, the client reads nothing and sends nothing (it is blocked on
`receive_message`). -/
theorem concurrent_duplex_counterexample :
    receive_message [0, 0, 0, 1, 9] = some ([9], [])
    ∧ server_loop [] [0, 0, 0, 1, 9] (LcgKeystream.new 1) (LcgKeystream.new 1)
        = ([], Outcome.blockedOnInput)
    ∧ client_loop ["hi"] [] (LcgKeystream.new 1) (LcgKeystream.new 1)
        = ([], Outcome.ioError) := by
  decide

/-- C9 amended: after the handshake each session runs one sequential loop
rather than two concurrent activities.  On the server every inbound frame is
processed only after an operator input line has been read (and with no
operator input the session makes no progress at all); on the client every
outbound frame is sent only after an inbound frame has been received (and
with no inbound data the session ends without reading any operator input). -/
theorem duplex_sequential (lines : List String) (inbound : List Nat)
    (sks rks : LcgKeystream) :
    server_loop [] inbound sks rks = ([], Outcome.blockedOnInput)
    ∧ client_loop lines [] sks rks = ([], Outcome.ioError)
    ∧ recvWaitsForInput (server_loop lines inbound sks rks).1 = true
    ∧ sendWaitsForRecv (client_loop lines inbound sks rks).1 = true :=
  ⟨server_loop_nil inbound sks rks, client_loop_err lines [] sks rks rfl,
   recvWaitsAux_server_loop lines inbound sks rks false,
   sendWaitsAux_client_loop lines inbound sks rks false⟩

/-- C10 as stated is false of the code: when the operator enters an empty
line, the client loops back to the receive without sending, so it processes
two consecutive inbound chat frames with no intervening outbound send.  With
input lines that both trim empty and two one-byte frames on the socket, the
client trace receives twice and sends nothing. -/
theorem lockstep_counterexample :
    twoConsecRecv (chatDirs (client_loop ["", ""]
      [0, 0, 0, 1, 9, 0, 0, 0, 1, 7] (LcgKeystream.new 1) (LcgKeystream.new 1)).1) = true
    ∧ (client_loop ["", ""] [0, 0, 0, 1, 9, 0, 0, 0, 1, 7]
        (LcgKeystream.new 1) (LcgKeystream.new 1)).1
      = [Event.recvMsg [9], Event.readLine "", Event.recvMsg [7], Event.readLine ""] := by
  decide

/-- C10 amended: the duplex loop is strictly half-duplex and single
threaded.  The chat frames of the server alternate strictly — one send, then
one receive, starting with a send — so the server never processes two
consecutive inbound chat frames without an intervening outbound send; the
client receives exactly one inbound frame per iteration before reading
operator input and sends at most one reply, an outbound send occurring only
immediately after an inbound receive — but input lines that trim empty make
the client receive consecutive frames without sending. -/
theorem lockstep_alternation (lines : List String) (inbound : List Nat)
    (sks rks : LcgKeystream) (our_private : Nat) :
    altFrom true (chatDirs (server_loop lines inbound sks rks).1) = true
    ∧ clientBlocks false (chatDirs (client_loop lines inbound sks rks).1) = true
    ∧ altFrom true (chatDirs (run_server our_private inbound lines).1) = true
    ∧ clientBlocks false (chatDirs (run_client our_private inbound lines).1) = true :=
  ⟨altFrom_server_loop lines inbound sks rks,
   clientBlocks_client_loop lines inbound sks rks false,
   altFrom_run_server our_private inbound lines,
   clientBlocks_run_client our_private inbound lines⟩
